import Mathlib

/-!
Shallow embedding of the vAIst audio processor sources.

Two deployments are embedded:

* `Source/wasm/processor.h` / `Source/wasm/processor.cpp` /
  `Source/wasm/bindings.cpp` — the sandboxed (WASM) processor.  All of its
  per-sample arithmetic is rational (additions, multiplications, integer
  truncation), so it is embedded executably over `ℚ`.
* `Source/PluginProcessor.h` / `Source/PluginProcessor.cpp` — the native JUCE
  plugin.  Its coefficient and gain computations use `sin`, `cos` and `pow`,
  so it is embedded over `ℝ`.

Audio samples are modelled as `Option` values: `some q` is a finite float
whose ideal value is `q`; `none` is a non-finite float (NaN or Inf).
Arithmetic on samples propagates `none`.  Rounding and overflow of finite
float arithmetic are idealised away (finite op finite = finite); the division
`1.0 / a0` in the coefficient normalisation, which produces a non-finite
value when `a0 = 0`, is modelled explicitly.  An out-of-bounds buffer access
(undefined behavior in the C++) makes the surrounding operation return `none`
at an outer `Option` layer, distinct from the sample-level `none`.
-/

/-- Addition on float samples; a non-finite operand propagates. -/
def addV {α : Type} [Add α] : Option α → Option α → Option α
  | some a, some b => some (a + b)
  | _, _ => none

/-- Subtraction on float samples; a non-finite operand propagates. -/
def subV {α : Type} [Sub α] : Option α → Option α → Option α
  | some a, some b => some (a - b)
  | _, _ => none

/-- Multiplication on float samples; a non-finite operand propagates. -/
def mulV {α : Type} [Mul α] : Option α → Option α → Option α
  | some a, some b => some (a * b)
  | _, _ => none

@[simp] lemma addV_some {α : Type} [Add α] (a b : α) :
    addV (some a) (some b) = some (a + b) := rfl

@[simp] lemma subV_some {α : Type} [Sub α] (a b : α) :
    subV (some a) (some b) = some (a - b) := rfl

@[simp] lemma mulV_some {α : Type} [Mul α] (a b : α) :
    mulV (some a) (some b) = some (a * b) := rfl

/-- The C++ `std::clamp(v, lo, hi)`: `v < lo ? lo : (hi < v ? hi : v)`. -/
def stdClamp (v lo hi : ℚ) : ℚ :=
  if v < lo then lo else if hi < v then hi else v

/-- The C++ `static_cast<int>` applied to a floating value: truncation toward
zero. -/
def truncQ (x : ℚ) : ℤ := if x < 0 then ⌈x⌉ else ⌊x⌋

/-- Indexing a buffer with an `int` index, as the C++ `delayBuf[readPos]`
does: in bounds it yields the stored sample, out of bounds it is undefined
behavior, modelled as `none` at the outer layer. -/
def listGetI (l : List (Option ℚ)) (i : ℤ) : Option (Option ℚ) :=
  if 0 ≤ i ∧ i < (l.length : ℤ) then l.get? i.toNat else none

/-- The output sanitizer of `processor.cpp` (both the inline copy at lines
56–60 and the final loop at lines 67–77): a non-finite sample becomes `0.0`,
a finite sample is clamped to `[-1, 1]` by `std::clamp`. -/
def sanitizeQ : Option ℚ → Option ℚ
  | none => some 0
  | some x => some (if x < -1 then -1 else if 1 < x then 1 else x)

/-- Fixed capacity of each channel's delay ring.

Modelled from the spec: `processor.cpp` iterates over `delayBuffer[ch]` with
`std::begin`/`std::end` and reads `delayBufferSize`, but neither member is
declared in `processor.h` (its "DSP State" section is empty).  The spec's
Delay Line is a fixed-length ring sized at build time; the concrete bound
chosen here is small so that witnesses evaluate, and no settled claim depends
on its value. -/
def delayBufferSize : ℕ := 4

/-- State of `VAIstProcessor` (`Source/wasm/processor.h`).  The parameter
fields and their defaults are the declarations at lines 108–123.  The last
five fields are referenced by `processor.cpp` but missing from the header;
they are modelled from the spec's Delay Line (per-channel ring buffer with a
write position) and zero-initialised as C++ statics would be. -/
structure VAIstProcessor where
  sampleRate : ℚ := 44100
  rate : ℚ := 0.5
  depth : ℚ := 50
  manualDelay : ℚ := 2
  feedback : ℚ := 40
  lfoWaveform : ℚ := 0
  stereoPhase : ℚ := 90
  stereoWidth : ℚ := 100
  highpassFreq : ℚ := 20
  lowpassFreq : ℚ := 20000
  mix : ℚ := 50
  outputGain : ℚ := 0
  time : ℚ := 0
  delayBuffer0 : List (Option ℚ) := List.replicate delayBufferSize (some 0)
  delayBuffer1 : List (Option ℚ) := List.replicate delayBufferSize (some 0)
  delayWritePos0 : ℕ := 0
  delayWritePos1 : ℕ := 0
  deriving DecidableEq

/-- The default-constructed processor (the static `g_processor` of
`bindings.cpp` before `prepare`). -/
def initialProcessor : VAIstProcessor := {}

/-- Parameter setter `set_rate` (`processor.h` line 52). -/
def VAIstProcessor.set_rate (p : VAIstProcessor) (value : ℚ) : VAIstProcessor :=
  { p with rate := stdClamp value 0.01 10 }

/-- Parameter setter `set_depth` (`processor.h` line 56). -/
def VAIstProcessor.set_depth (p : VAIstProcessor) (value : ℚ) : VAIstProcessor :=
  { p with depth := stdClamp value 0 100 }

/-- Parameter setter `set_manualDelay` (`processor.h` line 60). -/
def VAIstProcessor.set_manualDelay (p : VAIstProcessor) (value : ℚ) : VAIstProcessor :=
  { p with manualDelay := stdClamp value 0.1 10 }

/-- Parameter setter `set_feedback` (`processor.h` line 64). -/
def VAIstProcessor.set_feedback (p : VAIstProcessor) (value : ℚ) : VAIstProcessor :=
  { p with feedback := stdClamp value (-99) 99 }

/-- Parameter setter `set_lfoWaveform` (`processor.h` line 68). -/
def VAIstProcessor.set_lfoWaveform (p : VAIstProcessor) (value : ℚ) : VAIstProcessor :=
  { p with lfoWaveform := stdClamp value 0 4 }

/-- Parameter setter `set_stereoPhase` (`processor.h` line 72). -/
def VAIstProcessor.set_stereoPhase (p : VAIstProcessor) (value : ℚ) : VAIstProcessor :=
  { p with stereoPhase := stdClamp value 0 180 }

/-- Parameter setter `set_stereoWidth` (`processor.h` line 76). -/
def VAIstProcessor.set_stereoWidth (p : VAIstProcessor) (value : ℚ) : VAIstProcessor :=
  { p with stereoWidth := stdClamp value 0 200 }

/-- Parameter setter `set_highpassFreq` (`processor.h` line 80). -/
def VAIstProcessor.set_highpassFreq (p : VAIstProcessor) (value : ℚ) : VAIstProcessor :=
  { p with highpassFreq := stdClamp value 20 2000 }

/-- Parameter setter `set_lowpassFreq` (`processor.h` line 84). -/
def VAIstProcessor.set_lowpassFreq (p : VAIstProcessor) (value : ℚ) : VAIstProcessor :=
  { p with lowpassFreq := stdClamp value 1000 (20000) }

/-- Parameter setter `set_mix` (`processor.h` line 88). -/
def VAIstProcessor.set_mix (p : VAIstProcessor) (value : ℚ) : VAIstProcessor :=
  { p with mix := stdClamp value 0 100 }

/-- Parameter setter `set_outputGain` (`processor.h` line 92). -/
def VAIstProcessor.set_outputGain (p : VAIstProcessor) (value : ℚ) : VAIstProcessor :=
  { p with outputGain := stdClamp value (-24) 12 }

/-- Parameter getter `get_rate` (`processor.h` line 96). -/
def VAIstProcessor.get_rate (p : VAIstProcessor) : ℚ := p.rate

/-- Parameter getter `get_depth`. -/
def VAIstProcessor.get_depth (p : VAIstProcessor) : ℚ := p.depth

/-- Parameter getter `get_manualDelay`. -/
def VAIstProcessor.get_manualDelay (p : VAIstProcessor) : ℚ := p.manualDelay

/-- Parameter getter `get_feedback`. -/
def VAIstProcessor.get_feedback (p : VAIstProcessor) : ℚ := p.feedback

/-- Parameter getter `get_lfoWaveform`. -/
def VAIstProcessor.get_lfoWaveform (p : VAIstProcessor) : ℚ := p.lfoWaveform

/-- Parameter getter `get_stereoPhase`. -/
def VAIstProcessor.get_stereoPhase (p : VAIstProcessor) : ℚ := p.stereoPhase

/-- Parameter getter `get_stereoWidth`. -/
def VAIstProcessor.get_stereoWidth (p : VAIstProcessor) : ℚ := p.stereoWidth

/-- Parameter getter `get_highpassFreq`. -/
def VAIstProcessor.get_highpassFreq (p : VAIstProcessor) : ℚ := p.highpassFreq

/-- Parameter getter `get_lowpassFreq`. -/
def VAIstProcessor.get_lowpassFreq (p : VAIstProcessor) : ℚ := p.lowpassFreq

/-- Parameter getter `get_mix`. -/
def VAIstProcessor.get_mix (p : VAIstProcessor) : ℚ := p.mix

/-- Parameter getter `get_outputGain`. -/
def VAIstProcessor.get_outputGain (p : VAIstProcessor) : ℚ := p.outputGain

/-- `VAIstProcessor::reset` (`processor.cpp` lines 3–8): fill both delay
rings with `0.0f` and zero both write positions; nothing else is touched. -/
def wasmReset (p : VAIstProcessor) : VAIstProcessor :=
  { p with
    delayBuffer0 := p.delayBuffer0.map (fun _ => some 0)
    delayWritePos0 := 0
    delayBuffer1 := p.delayBuffer1.map (fun _ => some 0)
    delayWritePos1 := 0 }

/-- `VAIstProcessor::prepare` (`processor.h` lines 32–35): store the sample
rate, then `reset()`. -/
def wasmPrepare (p : VAIstProcessor) (sr : ℚ) : VAIstProcessor :=
  wasmReset { p with sampleRate := sr }

/-- The single `if (pos < 0) pos += bufSize` wrap the source applies to a
delay-read index. -/
def wrapIdx (n : ℕ) (i : ℤ) : ℤ := if i < 0 then i + (n : ℤ) else i

/-- The interpolated delay-line read of the inner sample loop of
`VAIstProcessor::process` (`processor.cpp` lines 36–44): `readPos` and
`readPos2 = readPos - 1`, each wrapped by a single `+= bufSize` when
negative, then linear interpolation weighted by the fractional delay.
`none` (at the outer layer) is an out-of-bounds access — undefined
behavior. -/
def delayRead (buf : List (Option ℚ)) (wp : ℕ) (delayInt : ℤ) (delayFrac : ℚ) :
    Option (Option ℚ) :=
  match listGetI buf (wrapIdx buf.length ((wp : ℤ) - delayInt)),
        listGetI buf (wrapIdx buf.length (wrapIdx buf.length ((wp : ℤ) - delayInt) - 1)) with
  | some s1, some s2 =>
    some (addV (mulV s1 (some (1 - delayFrac))) (mulV s2 (some delayFrac)))
  | _, _ => none

/-- One iteration of the inner sample loop, continued: feedback write at
`writePos` (in bounds by the ring invariant; out of bounds is undefined
behavior), write-position increment, dry/wet mix, inline sanitize. -/
def processSample (sr timev mixv fb : ℚ) (buf : List (Option ℚ)) (wp : ℕ)
    (x : Option ℚ) : Option (List (Option ℚ) × ℕ × Option ℚ) :=
  match delayRead buf wp (truncQ (timev * 1000 * 0.001 * sr))
      (timev * 1000 * 0.001 * sr - (truncQ (timev * 1000 * 0.001 * sr) : ℚ)) with
  | some delayed =>
    if wp < buf.length then
      some (buf.set wp (addV x (mulV (mulV delayed (some fb)) (some 0.9))),
            (wp + 1) % buf.length,
            sanitizeQ (addV (mulV x (some (1 - mixv))) (mulV delayed (some mixv))))
    else none
  | none => none

/-- The per-channel sample loop of `VAIstProcessor::process` over a whole
block, threading the ring and write position. -/
def processChannel (sr timev mixv fb : ℚ) :
    List (Option ℚ) → ℕ → List (Option ℚ) →
    Option (List (Option ℚ) × ℕ × List (Option ℚ))
  | buf, wp, [] => some (buf, wp, [])
  | buf, wp, x :: xs =>
    match processSample sr timev mixv fb buf wp x with
    | none => none
    | some (buf', wp', y) =>
      match processChannel sr timev mixv fb buf' wp' xs with
      | none => none
      | some (buf'', wp'', ys) => some (buf'', wp'', y :: ys)

/-- `VAIstProcessor::process` (`processor.cpp` lines 10–78).  Guards
`numChannels <= 0` (early return), caps the channel count at 2, runs the
per-channel loop on the first `min numChannels 2` channel buffers, then runs
the final sanitization loop over those same channels.  Channel buffers beyond
the processed ones are returned untouched.  Passing fewer buffers than the
(capped) channel count dereferences a missing pointer — undefined behavior,
modelled as `none`.  A block's sample count is the length of each channel
list (`numSamples <= 0` corresponds to empty channels, for which the loops
do nothing, matching the early return). -/
def wasmProcess (p : VAIstProcessor) (bufs : List (List (Option ℚ)))
    (numChannels : ℤ) : Option (VAIstProcessor × List (List (Option ℚ))) :=
  if numChannels ≤ 0 then some (p, bufs)
  else if numChannels = 1 then
    match bufs with
    | [] => none
    | c0 :: rest =>
      match processChannel p.sampleRate p.time p.mix p.feedback
          p.delayBuffer0 p.delayWritePos0 c0 with
      | none => none
      | some (b0, w0, y0) =>
        some ({ p with delayBuffer0 := b0, delayWritePos0 := w0 },
          y0.map sanitizeQ :: rest)
  else
    match bufs with
    | c0 :: c1 :: rest =>
      match processChannel p.sampleRate p.time p.mix p.feedback
          p.delayBuffer0 p.delayWritePos0 c0 with
      | none => none
      | some (b0, w0, y0) =>
        match processChannel p.sampleRate p.time p.mix p.feedback
            p.delayBuffer1 p.delayWritePos1 c1 with
        | none => none
        | some (b1, w1, y1) =>
          some ({ p with delayBuffer0 := b0, delayWritePos0 := w0,
                         delayBuffer1 := b1, delayWritePos1 := w1 },
            y0.map sanitizeQ :: y1.map sanitizeQ :: rest)
    | _ => none

/-- The global state of `bindings.cpp`: the static `g_processor` together
with the `g_initialized` flag. -/
structure WasmBindings where
  proc : VAIstProcessor
  inited : Bool
  deriving DecidableEq

/-- The module state at load time: default-constructed processor,
`g_initialized = false`. -/
def initialBindings : WasmBindings := ⟨initialProcessor, false⟩

/-- The exported `prepare` of `bindings.cpp` (lines 38–42). -/
def bindingsPrepare (b : WasmBindings) (sr : ℚ) : WasmBindings :=
  ⟨wasmPrepare b.proc sr, true⟩

/-- The exported `reset` of `bindings.cpp` (lines 47–49). -/
def bindingsReset (b : WasmBindings) : WasmBindings :=
  ⟨wasmReset b.proc, b.inited⟩

/-- The exported `destroy` of `bindings.cpp` (lines 56–61). -/
def bindingsDestroy (b : WasmBindings) : WasmBindings :=
  ⟨wasmReset b.proc, false⟩

/-- The exported `process` of `bindings.cpp` (lines 73–90): copy the input
buffers over the output buffers, then process the output pair in place with
`numChannels = 2`.  The current contents of the caller's output buffers
(`leftOut`, `rightOut`) are overwritten by the copy.  No initialization
check is performed and no status is returned. -/
def bindingsProcess (b : WasmBindings) (leftIn rightIn : List (Option ℚ))
    (leftOut rightOut : List (Option ℚ)) :
    Option (WasmBindings × List (Option ℚ) × List (Option ℚ)) :=
  match wasmProcess b.proc [leftIn, rightIn] 2 with
  | none => none
  | some (p', bufs') =>
    match bufs' with
    | [l, r] => some (⟨p', b.inited⟩, l, r)
    | _ => none

/-!
Embedding of the native JUCE plugin (`Source/PluginProcessor.h` /
`Source/PluginProcessor.cpp`).  Samples are `RVal := Option ℝ`, with `none`
a non-finite float as before.
-/

noncomputable section

/-- A native-side float sample: `some x` finite, `none` NaN/Inf. -/
abbrev RVal := Option ℝ

/-- The 28 `juce::AudioParameterFloat` values of `VAIstAudioProcessor`, with
the constructor defaults (`PluginProcessor.cpp` lines 11–206), in
declaration order. -/
structure JuceParams where
  masterGain : ℝ := 0
  masterWet : ℝ := 100
  processingMode : ℝ := 0
  b1Freq : ℝ := 100
  b1Gain : ℝ := 0
  b1Q : ℝ := 0.7
  b1Dyn : ℝ := 0
  b1Type : ℝ := 0
  b2Freq : ℝ := 440
  b2Gain : ℝ := 0
  b2Q : ℝ := 0.7
  b2Dyn : ℝ := 0
  b3Freq : ℝ := 1000
  b3Gain : ℝ := 0
  b3Q : ℝ := 0.7
  b3Dyn : ℝ := 0
  b4Freq : ℝ := 2500
  b4Gain : ℝ := 0
  b4Q : ℝ := 0.7
  b4Dyn : ℝ := 0
  b5Freq : ℝ := 5000
  b5Gain : ℝ := 0
  b5Q : ℝ := 0.7
  b5Dyn : ℝ := 0
  b6Freq : ℝ := 12000
  b6Gain : ℝ := 0
  b6Q : ℝ := 0.7
  b6Dyn : ℝ := 0

/-- The parameter values in declaration order (the order of the
`addParameter` calls in the constructor). -/
def juceParamValues (p : JuceParams) : List ℝ :=
  [p.masterGain, p.masterWet, p.processingMode,
   p.b1Freq, p.b1Gain, p.b1Q, p.b1Dyn, p.b1Type,
   p.b2Freq, p.b2Gain, p.b2Q, p.b2Dyn,
   p.b3Freq, p.b3Gain, p.b3Q, p.b3Dyn,
   p.b4Freq, p.b4Gain, p.b4Q, p.b4Dyn,
   p.b5Freq, p.b5Gain, p.b5Q, p.b5Dyn,
   p.b6Freq, p.b6Gain, p.b6Q, p.b6Dyn]

/-- The default-constructed parameter set. -/
def juceDefaultParams : JuceParams := {}

/-- Number of parameters held by the plugin's parameter store. -/
def juceParameterCount : ℕ := (juceParamValues juceDefaultParams).length

/-- `VAIstAudioProcessor::getStateInformation` (`PluginProcessor.cpp` lines
371–374): the body is `juce::ignoreUnused(destData)` — the destination
memory block is left exactly as passed in and no parameter bytes are
written. -/
def getStateInformation (p : JuceParams) (destData : List ℕ) : List ℕ :=
  destData

/-- `VAIstAudioProcessor::setStateInformation` (`PluginProcessor.cpp` lines
376–379): the body is `juce::ignoreUnused(data, sizeInBytes)` — the
parameter store is left unchanged. -/
def setStateInformation (p : JuceParams) (data : List ℕ) : JuceParams :=
  p

/-- The private DSP state of `VAIstAudioProcessor` (`PluginProcessor.h`
lines 98–101): the declared-but-never-used `gainSmoothed` and the
Direct-Form-II-transposed memories `z1[2]`, `z2[2]`. -/
structure JuceDsp where
  gainSmoothed : ℝ := 1
  z1c0 : RVal := some 0
  z1c1 : RVal := some 0
  z2c0 : RVal := some 0
  z2c1 : RVal := some 0

/-- `VAIstAudioProcessor::prepareToPlay` (`PluginProcessor.cpp` lines
222–231): ignores its arguments and zeroes `z1` and `z2` for both
channels. -/
def jucePrepareToPlay (st : JuceDsp) : JuceDsp :=
  { st with z1c0 := some 0, z1c1 := some 0, z2c0 := some 0, z2c1 := some 0 }

/-- The filter frequency computed each block (`PluginProcessor.cpp` line
291): `20.0f * std::pow(1000.0f, b1Freq)`, with no clamping. -/
def juceFrequency (b1Freq : ℝ) : ℝ := 20 * (1000 : ℝ) ^ b1Freq

/-- The filter Q computed each block (line 292): `0.5f + b1Freq * 9.5f`,
with no clamping. -/
def juceQ (b1Freq : ℝ) : ℝ := 0.5 + b1Freq * 9.5

/-- The normalized angular frequency (line 295). -/
def juceOmega (b1Freq sampleRate : ℝ) : ℝ :=
  2 * Real.pi * juceFrequency b1Freq / sampleRate

/-- `alpha = sin(omega) / (2 Q)` (line 298). -/
def juceAlpha (b1Freq sampleRate : ℝ) : ℝ :=
  Real.sin (juceOmega b1Freq sampleRate) / (2 * juceQ b1Freq)

/-- `a0 = 1 + alpha` (line 304). -/
def juceA0 (b1Freq sampleRate : ℝ) : ℝ := 1 + juceAlpha b1Freq sampleRate

/-- `a0Inv = 1.0 / a0` (line 309); the float division yields a non-finite
value exactly when `a0 = 0`. -/
def juceA0Inv (b1Freq sampleRate : ℝ) : RVal :=
  if juceA0 b1Freq sampleRate = 0 then none
  else some (1 / juceA0 b1Freq sampleRate)

/-- Normalized coefficient `b0n = b0 * a0Inv` (line 310), with
`b0 = (1 - cos omega) / 2` (line 301). -/
def juceB0n (b1Freq sampleRate : ℝ) : RVal :=
  mulV (some ((1 - Real.cos (juceOmega b1Freq sampleRate)) / 2))
    (juceA0Inv b1Freq sampleRate)

/-- Normalized coefficient `b1n = b1 * a0Inv` (line 311), with
`b1 = 1 - cos omega` (line 302). -/
def juceB1n (b1Freq sampleRate : ℝ) : RVal :=
  mulV (some (1 - Real.cos (juceOmega b1Freq sampleRate)))
    (juceA0Inv b1Freq sampleRate)

/-- Normalized coefficient `b2n = b2 * a0Inv` (line 312), with
`b2 = (1 - cos omega) / 2` (line 303). -/
def juceB2n (b1Freq sampleRate : ℝ) : RVal :=
  mulV (some ((1 - Real.cos (juceOmega b1Freq sampleRate)) / 2))
    (juceA0Inv b1Freq sampleRate)

/-- Normalized coefficient `a1n = a1 * a0Inv` (line 313), with
`a1 = -2 cos omega` (line 305). -/
def juceA1n (b1Freq sampleRate : ℝ) : RVal :=
  mulV (some (-2 * Real.cos (juceOmega b1Freq sampleRate)))
    (juceA0Inv b1Freq sampleRate)

/-- Normalized coefficient `a2n = a2 * a0Inv` (line 314), with
`a2 = 1 - alpha` (line 306). -/
def juceA2n (b1Freq sampleRate : ℝ) : RVal :=
  mulV (some (1 - juceAlpha b1Freq sampleRate))
    (juceA0Inv b1Freq sampleRate)

/-- The per-channel Direct-Form-II-transposed filter loop
(`PluginProcessor.cpp` lines 321–331), threading `(z1, z2)` and producing
the filtered samples. -/
def juceFilterChannel (b0n b1n b2n a1n a2n : RVal) :
    RVal → RVal → List RVal → RVal × RVal × List RVal
  | z1, z2, [] => (z1, z2, [])
  | z1, z2, x :: xs =>
    let y := addV (mulV b0n x) z1
    let z1' := addV (subV (mulV b1n x) (mulV a1n y)) z2
    let z2' := subV (mulV b2n x) (mulV a2n y)
    let rest := juceFilterChannel b0n b1n b2n a1n a2n z1' z2' xs
    (rest.1, rest.2.1, y :: rest.2.2)

/-- The linear gain computed inside the gain loop (lines 341–342):
`gainDb = masterGain * 36.0f - 24.0f`, `gainLinear = 10^(gainDb / 20)`. -/
def juceGainLinear (masterGain : ℝ) : ℝ :=
  (10 : ℝ) ^ ((masterGain * 36 - 24) / 20)

/-- The per-channel gain loop (`PluginProcessor.cpp` lines 335–345):
each sample is multiplied by `juceGainLinear masterGain` (recomputed from
the same parameter value at every sample, hence constant over the block). -/
def juceGainStage (masterGain : ℝ) (xs : List RVal) : List RVal :=
  xs.map (fun x => mulV x (some (juceGainLinear masterGain)))

/-- The output sanitization loop of `processBlock` (lines 350–361):
non-finite samples become `0.0f`, finite samples are clamped to `[-1, 1]`
by `juce::jlimit`. -/
def sanitizeR : RVal → RVal
  | none => some 0
  | some x => some (if x < -1 then -1 else if 1 < x then 1 else x)

/-- `VAIstAudioProcessor::processBlock` (`PluginProcessor.cpp` lines
245–362): compute the biquad coefficients from `b1Freq` and the sample
rate, filter every channel (threading `z1[ch]`, `z2[ch]`), apply the gain
loop, then run the output sanitization loop.  The parameters other than
`masterGain` and `b1Freq` are read but unused (there is no dry/wet mix
stage).  The host guarantees at most two channels
(`isBusesLayoutSupported`); more channels would index past `z1[2]`/`z2[2]`
— undefined behavior, modelled as `none`. -/
def juceProcessBlock (p : JuceParams) (sampleRate : ℝ) (st : JuceDsp)
    (bufs : List (List RVal)) : Option (JuceDsp × List (List RVal)) :=
  if 2 < bufs.length then none
  else
    match bufs with
    | [] => some (st, [])
    | [c0] =>
      match juceFilterChannel (juceB0n p.b1Freq sampleRate) (juceB1n p.b1Freq sampleRate)
          (juceB2n p.b1Freq sampleRate) (juceA1n p.b1Freq sampleRate)
          (juceA2n p.b1Freq sampleRate) st.z1c0 st.z2c0 c0 with
      | (z1f, z2f, y0) =>
        some ({ st with z1c0 := z1f, z2c0 := z2f },
          [(juceGainStage p.masterGain y0).map sanitizeR])
    | [c0, c1] =>
      match juceFilterChannel (juceB0n p.b1Freq sampleRate) (juceB1n p.b1Freq sampleRate)
          (juceB2n p.b1Freq sampleRate) (juceA1n p.b1Freq sampleRate)
          (juceA2n p.b1Freq sampleRate) st.z1c0 st.z2c0 c0,
        juceFilterChannel (juceB0n p.b1Freq sampleRate) (juceB1n p.b1Freq sampleRate)
          (juceB2n p.b1Freq sampleRate) (juceA1n p.b1Freq sampleRate)
          (juceA2n p.b1Freq sampleRate) st.z1c1 st.z2c1 c1 with
      | (z1f, z2f, y0), (z1g, z2g, y1) =>
        some ({ st with z1c0 := z1f, z2c0 := z2f, z1c1 := z1g, z2c1 := z2g },
          [(juceGainStage p.masterGain y0).map sanitizeR,
           (juceGainStage p.masterGain y1).map sanitizeR])
    | _ => none

end

/-!
Helper predicates and lemmas shared by the claim theorems.
-/

/-- Pointwise predicate over a sample list. -/
def allSamples {α : Type} (P : α → Prop) : List α → Prop
  | [] => True
  | x :: xs => P x ∧ allSamples P xs

/-- A sandboxed-side sample that is finite and within `[-1, 1]`. -/
def boundedSampleQ (s : Option ℚ) : Prop :=
  ∃ q, s = some q ∧ -1 ≤ q ∧ q ≤ 1

/-- A native-side sample that is finite and within `[-1, 1]`. -/
def boundedSampleR (s : RVal) : Prop :=
  ∃ x, s = some x ∧ -1 ≤ x ∧ x ≤ 1

lemma sanitizeQ_bounded (s : Option ℚ) : boundedSampleQ (sanitizeQ s) := by
  rcases s with _ | x
  · exact ⟨0, rfl, by norm_num, by norm_num⟩
  · refine ⟨_, rfl, ?_, ?_⟩ <;> dsimp only [sanitizeQ] <;> split <;> try split
    all_goals linarith

lemma sanitizeR_bounded (s : RVal) : boundedSampleR (sanitizeR s) := by
  rcases s with _ | x
  · exact ⟨0, rfl, by norm_num, by norm_num⟩
  · refine ⟨_, rfl, ?_, ?_⟩ <;> dsimp only [sanitizeR] <;> split <;> try split
    all_goals linarith

lemma allSamples_map {α β : Type} (f : α → β) (P : β → Prop)
    (h : ∀ x, P (f x)) : ∀ l : List α, allSamples P (l.map f)
  | [] => trivial
  | x :: xs => ⟨h x, allSamples_map f P h xs⟩



/-!
Claim theorems.
-/

/-- C2: the state-persistence claim says `serialize()` produces exactly
`4 * parameterCount` bytes (one little-endian 32-bit float per parameter in
declaration order) and that `deserialize(serialize())` restores the values.
The code's `getStateInformation` writes nothing at all (it leaves the
destination block exactly as passed, producing 0 bytes instead of
`4 * 28 = 112`) and `setStateInformation` ignores its input entirely. -/
theorem c2_state_persistence_stub :
    (getStateInformation juceDefaultParams []).length = 0 ∧
    juceParameterCount = 28 ∧
    (getStateInformation juceDefaultParams []).length ≠ 4 * juceParameterCount ∧
    (∀ (p : JuceParams) (blob : List ℕ), setStateInformation p blob = p) :=
  ⟨rfl, rfl, by simp [getStateInformation, juceParameterCount, juceParamValues,
    juceDefaultParams], fun _ _ => rfl⟩

/-- C3: for every parameter of `VAIstProcessor`, calling the setter with any
value `v` and then the getter returns `std::clamp(v, min, max)` for the
documented range of that parameter; out-of-range writes are clamped, never
rejected. -/
theorem c3_set_then_get_clamps (p : VAIstProcessor) (v : ℚ) :
    (p.set_rate v).get_rate = stdClamp v 0.01 10 ∧
    (p.set_depth v).get_depth = stdClamp v 0 100 ∧
    (p.set_manualDelay v).get_manualDelay = stdClamp v 0.1 10 ∧
    (p.set_feedback v).get_feedback = stdClamp v (-99) 99 ∧
    (p.set_lfoWaveform v).get_lfoWaveform = stdClamp v 0 4 ∧
    (p.set_stereoPhase v).get_stereoPhase = stdClamp v 0 180 ∧
    (p.set_stereoWidth v).get_stereoWidth = stdClamp v 0 200 ∧
    (p.set_highpassFreq v).get_highpassFreq = stdClamp v 20 2000 ∧
    (p.set_lowpassFreq v).get_lowpassFreq = stdClamp v 1000 20000 ∧
    (p.set_mix v).get_mix = stdClamp v 0 100 ∧
    (p.set_outputGain v).get_outputGain = stdClamp v (-24) 12 :=
  ⟨rfl, rfl, rfl, rfl, rfl, rfl, rfl, rfl, rfl, rfl, rfl⟩

/-- C9: `reset()` is idempotent — applying it twice equals applying it once —
and one application zeroes all transient DSP state (delay rings and write
positions; on the native side, `prepareToPlay` zeroes the filter memories
`z1`/`z2` and is likewise idempotent) while leaving every parameter value
and the sample rate unchanged. -/
theorem c9_reset_idempotent :
    (∀ p : VAIstProcessor, wasmReset (wasmReset p) = wasmReset p) ∧
    (∀ p : VAIstProcessor,
      (wasmReset p).rate = p.rate ∧ (wasmReset p).depth = p.depth ∧
      (wasmReset p).manualDelay = p.manualDelay ∧
      (wasmReset p).feedback = p.feedback ∧
      (wasmReset p).lfoWaveform = p.lfoWaveform ∧
      (wasmReset p).stereoPhase = p.stereoPhase ∧
      (wasmReset p).stereoWidth = p.stereoWidth ∧
      (wasmReset p).highpassFreq = p.highpassFreq ∧
      (wasmReset p).lowpassFreq = p.lowpassFreq ∧
      (wasmReset p).mix = p.mix ∧
      (wasmReset p).outputGain = p.outputGain ∧
      (wasmReset p).sampleRate = p.sampleRate ∧
      allSamples (fun s => s = some 0) (wasmReset p).delayBuffer0 ∧
      allSamples (fun s => s = some 0) (wasmReset p).delayBuffer1 ∧
      (wasmReset p).delayWritePos0 = 0 ∧ (wasmReset p).delayWritePos1 = 0) ∧
    (∀ st : JuceDsp, jucePrepareToPlay (jucePrepareToPlay st) = jucePrepareToPlay st) := by
  refine ⟨?_, ?_, ?_⟩
  · intro p
    cases p
    simp [wasmReset, List.map_map, Function.comp]
  · intro p
    refine ⟨rfl, rfl, rfl, rfl, rfl, rfl, rfl, rfl, rfl, rfl, rfl, rfl, ?_, ?_, rfl, rfl⟩ <;>
      exact allSamples_map (fun _ => some 0) (fun s => s = some 0) (fun _ => rfl) _
  · intro st
    rfl

/-- C10: `VAIstProcessor::process` caps the effective channel count at 2
(`numChannels = std::min(numChannels, 2)`): with more than two channels the
call behaves exactly as with two, and every channel buffer at index 2 or
higher is returned exactly unchanged. -/
theorem c10_channels_capped_and_untouched :
    (∀ (p : VAIstProcessor) (bufs : List (List (Option ℚ))) (n : ℤ),
      2 ≤ n → wasmProcess p bufs n = wasmProcess p bufs 2) ∧
    (∀ (p : VAIstProcessor) (bufs : List (List (Option ℚ))) (n : ℤ)
      (r : VAIstProcessor × List (List (Option ℚ))),
      2 ≤ n → wasmProcess p bufs n = some r → r.2.drop 2 = bufs.drop 2) := by
  constructor
  · intro p bufs n hn
    rw [wasmProcess.eq_def, wasmProcess.eq_def, if_neg (by omega : ¬ n ≤ 0),
      if_neg (by omega : n ≠ 1), if_neg (by omega : ¬ (2:ℤ) ≤ 0),
      if_neg (by omega : (2:ℤ) ≠ 1)]
  · intro p bufs n r hn h
    rw [wasmProcess.eq_def, if_neg (by omega : ¬ n ≤ 0), if_neg (by omega : n ≠ 1)] at h
    split at h
    all_goals try exact Option.noConfusion h
    split at h
    all_goals try exact Option.noConfusion h
    split at h
    all_goals try exact Option.noConfusion h
    simp only [Option.some.injEq] at h
    rw [← h]
    simp

/-- C1: in both deployments the output sanitizer runs as the last stage of
`process`: every processed output sample is the image of `sanitize`, hence a
finite value in `[-1, 1]` — for any input block (finite or not) and any
parameter values, so in particular for finite inputs and documented
parameter ranges.  On the sandboxed side the processed channels are the
first `min numChannels 2`; channels beyond those are not part of the
processed block (see C10). -/
theorem c1_output_sanitized_and_bounded :
    (∀ (p : VAIstProcessor) (bufs : List (List (Option ℚ))) (n : ℤ)
      (r : VAIstProcessor × List (List (Option ℚ))),
      wasmProcess p bufs n = some r →
      allSamples (allSamples boundedSampleQ) (r.2.take (min n 2).toNat)) ∧
    (∀ (pp : JuceParams) (sr : ℝ) (st : JuceDsp) (bufs : List (List RVal))
      (r : JuceDsp × List (List RVal)),
      juceProcessBlock pp sr st bufs = some r →
      allSamples (allSamples boundedSampleR) r.2) := by
  constructor
  · intro p bufs n r h
    rw [wasmProcess.eq_def] at h
    split at h
    · rename_i hle
      simp only [Option.some.injEq] at h
      rw [← h]
      have ht : (min n 2).toNat = 0 := by omega
      rw [ht]
      exact trivial
    · rename_i hle
      split at h
      · rename_i heq
        split at h
        all_goals try exact Option.noConfusion h
        split at h
        all_goals try exact Option.noConfusion h
        simp only [Option.some.injEq] at h
        rw [← h]
        have ht : (min n 2).toNat = 1 := by omega
        rw [ht]
        exact ⟨allSamples_map _ _ sanitizeQ_bounded _, trivial⟩
      · rename_i hne
        split at h
        all_goals try exact Option.noConfusion h
        split at h
        all_goals try exact Option.noConfusion h
        split at h
        all_goals try exact Option.noConfusion h
        simp only [Option.some.injEq] at h
        rw [← h]
        have ht : (min n 2).toNat = 2 := by omega
        rw [ht]
        exact ⟨allSamples_map _ _ sanitizeQ_bounded _,
               allSamples_map _ _ sanitizeQ_bounded _, trivial⟩
  · intro pp sr st bufs r h
    rw [juceProcessBlock.eq_def] at h
    split at h
    · exact Option.noConfusion h
    · split at h
      · simp only [Option.some.injEq] at h
        rw [← h]; exact trivial
      · split at h
        simp only [Option.some.injEq] at h
        rw [← h]
        exact ⟨allSamples_map _ _ sanitizeR_bounded _, trivial⟩
      · split at h
        simp only [Option.some.injEq] at h
        rw [← h]
        exact ⟨allSamples_map _ _ sanitizeR_bounded _,
               allSamples_map _ _ sanitizeR_bounded _, trivial⟩
      · exact Option.noConfusion h

/-- Witness for C1: a concrete stereo block on each side.  On the sandboxed
side the default-state processor maps the input block `[[1], [0]]` to
`[[-1], [0]]` (the unscaled `mix = 50` blend saturates the first sample to
the clamp floor), and both outputs are finite and within bounds; on the
native side an empty one-channel block is processed. -/
theorem c1_witness :
    allSamples (allSamples boundedSampleQ)
      (([[some (-1 : ℚ)], [some (0 : ℚ)]] : List (List (Option ℚ))).take
        (min (2 : ℤ) 2).toNat) ∧
    allSamples (allSamples boundedSampleR) ([[]] : List (List RVal)) := by
  constructor
  · exact c1_output_sanitized_and_bounded.1 initialProcessor [[some 1], [some 0]] 2
      ({ initialProcessor with
          delayBuffer0 := [some 1, some 0, some 0, some 0], delayWritePos0 := 1,
          delayBuffer1 := [some 0, some 0, some 0, some 0], delayWritePos1 := 1 },
        [[some (-1)], [some 0]])
      (by with_unfolding_all rfl)
  · exact c1_output_sanitized_and_bounded.2 juceDefaultParams 48000 {} [[]]
      ({}, [[]]) rfl

/-- Witness for C10: processing a concrete three-channel block with
`numChannels = 3` equals processing it with `numChannels = 2`, and the third
channel buffer comes back exactly unchanged. -/
theorem c10_witness :
    wasmProcess initialProcessor [[some 1], [some 0], [some 7]] 3 =
      wasmProcess initialProcessor [[some 1], [some 0], [some 7]] 2 ∧
    ([[some (-1 : ℚ)], [some (0 : ℚ)], [some (7 : ℚ)]] :
        List (List (Option ℚ))).drop 2 =
      ([[some (1 : ℚ)], [some (0 : ℚ)], [some (7 : ℚ)]] :
        List (List (Option ℚ))).drop 2 := by
  constructor
  · exact c10_channels_capped_and_untouched.1 initialProcessor
      [[some 1], [some 0], [some 7]] 3 (by norm_num)
  · exact c10_channels_capped_and_untouched.2 initialProcessor
      [[some 1], [some 0], [some 7]] 3
      ({ initialProcessor with
          delayBuffer0 := [some 1, some 0, some 0, some 0], delayWritePos0 := 1,
          delayBuffer1 := [some 0, some 0, some 0, some 0], delayWritePos1 := 1 },
        [[some (-1)], [some 0], [some 7]])
      (by norm_num) (by with_unfolding_all rfl)

lemma juceQ_ge (p : ℝ) (hp : 20 ≤ p) : 190.5 ≤ juceQ p := by
  unfold juceQ; nlinarith

lemma juceA0_ge (p sr : ℝ) (hp : 20 ≤ p) : 380 / 381 ≤ juceA0 p sr := by
  have hQ : 190.5 ≤ juceQ p := juceQ_ge p hp
  have h2Q : (381 : ℝ) ≤ 2 * juceQ p := by nlinarith
  have hpos : (0 : ℝ) < 2 * juceQ p := by linarith
  have hsin : -1 ≤ Real.sin (juceOmega p sr) := Real.neg_one_le_sin _
  have h1 : (-1 : ℝ) / (2 * juceQ p) ≤ Real.sin (juceOmega p sr) / (2 * juceQ p) :=
    (div_le_div_right hpos).mpr hsin
  have h2 : 1 / (2 * juceQ p) ≤ 1 / 381 :=
    one_div_le_one_div_of_le (by norm_num) h2Q
  have h3 : (-1 : ℝ) / 381 ≤ (-1 : ℝ) / (2 * juceQ p) := by
    rw [neg_div, neg_div]
    exact neg_le_neg h2
  unfold juceA0 juceAlpha
  have := le_trans h3 h1
  linarith

/-- Counterexample for C4: no clamping of the filter frequency to
`(0, fs/2)` happens.  At the minimum in-range parameter value
`b1Freq = 20` and `fs = 48000`, the frequency actually fed into the
cookbook formula is `20 * 1000^20`, far above `fs/2 = 24000`, and the
resulting normalized angular frequency exceeds `pi` (a frequency clamped
into `(0, fs/2)` would give `omega < pi`). -/
theorem c4_counterexample :
    24000 < juceFrequency 20 ∧ Real.pi < juceOmega 20 48000 := by
  have hf : (24000 : ℝ) < juceFrequency 20 := by
    unfold juceFrequency
    have h20 : (1000 : ℝ) ^ (20 : ℝ) = (1000 : ℝ) ^ (20 : ℕ) := by
      rw [← Real.rpow_natCast]
      norm_num
    rw [h20]
    norm_num
  refine ⟨hf, ?_⟩
  unfold juceOmega
  have hpi : (0 : ℝ) < 2 * Real.pi := by positivity
  have h2 : 2 * Real.pi * 24000 / 48000 < 2 * Real.pi * juceFrequency 20 / 48000 :=
    div_lt_div_of_pos_right ((mul_lt_mul_left hpi).mpr hf) (by norm_num)
  linarith

/-- C4 amended: the code performs no clamping at all — the frequency
`20 * 1000^b1Freq` and `Q = 0.5 + 9.5 * b1Freq` are used directly —
but for every in-range `b1Freq` (at least 20, so `Q ≥ 190.5`) and any
sample rate, `Q` is strictly positive and `a0 = 1 + sin(omega)/(2Q)` is
nonzero (`|alpha| ≤ 1/381`), so neither division in the coefficient
computation divides by zero. -/
theorem c4_no_clamp_but_divisions_nonzero (p sr : ℝ) (hp : 20 ≤ p) :
    0 < juceQ p ∧ juceA0 p sr ≠ 0 := by
  have hQ : 190.5 ≤ juceQ p := juceQ_ge p hp
  have hA0 : 380 / 381 ≤ juceA0 p sr := juceA0_ge p sr hp
  exact ⟨by linarith, by intro h; rw [h] at hA0; norm_num at hA0⟩

/-- Witness for C4 amended, at `b1Freq = 20`, `fs = 48000`. -/
theorem c4_witness :
    ((20 : ℝ) ≤ 20) ∧ 0 < juceQ 20 ∧ juceA0 20 48000 ≠ 0 :=
  ⟨le_refl _, c4_no_clamp_but_divisions_nonzero 20 48000 (le_refl _)⟩

/-- Counterexample for C7: the gain stage does not multiply by
`10^(dB/20)` with `dB` the decibel gain parameter's value.  At
`masterGain = 0` (the default, squarely inside the documented
`[-24, 24]` range) the claimed factor is `10^(0/20) = 1`, so a sample of
`1` would pass unchanged; the code instead multiplies by
`10^((0*36-24)/20) = 10^(-1.2) < 1` and changes the sample. -/
theorem c7_counterexample :
    juceGainStage 0 [some (1 : ℝ)] ≠ [some (1 : ℝ)] := by
  intro hEq
  simp only [juceGainStage, List.map_cons, List.map_nil, mulV_some, one_mul,
    List.cons.injEq, Option.some.injEq, and_true] at hEq
  have hg : juceGainLinear 0 < 1 := by
    unfold juceGainLinear
    have h1 : ((0 : ℝ) * 36 - 24) / 20 < 0 := by norm_num
    calc (10 : ℝ) ^ (((0 : ℝ) * 36 - 24) / 20) < (10 : ℝ) ^ (0 : ℝ) :=
          (Real.rpow_lt_rpow_left_iff (by norm_num)).mpr h1
      _ = 1 := Real.rpow_zero _
  rw [hEq] at hg
  exact lt_irrefl _ hg

/-- C7 amended: the gain loop multiplies every sample of the block by the
same unsmoothed factor `10^((masterGain*36 - 24)/20)`, computed from the
raw parameter value alone (the declared `gainSmoothed` member is never
used, so no smoothing takes place). -/
theorem c7_gain_factor (mg : ℝ) (xs : List RVal) (i : ℕ) (x : RVal)
    (h : xs.get? i = some x) :
    (juceGainStage mg xs).get? i =
      some (mulV x (some ((10 : ℝ) ^ ((mg * 36 - 24) / 20)))) := by
  unfold juceGainStage juceGainLinear
  rw [List.get?_map, h]
  rfl

/-- Witness for C7 amended at sample index 0 of a one-sample block. -/
theorem c7_witness :
    ([some (1 : ℝ)] : List RVal).get? 0 = some (some 1) ∧
    (juceGainStage (2 / 3) [some (1 : ℝ)]).get? 0 =
      some (mulV (some (1 : ℝ)) (some ((10 : ℝ) ^ (((2 : ℝ) / 3 * 36 - 24) / 20)))) :=
  ⟨rfl, c7_gain_factor (2 / 3) [some 1] 0 (some 1) rfl⟩

/-- Counterexample for C8: calling the exported `process` before any
`prepare` (the load-time state, `g_initialized = false`) neither fails with
a `NotPrepared` signal nor leaves the caller's buffers unchanged: the call
runs the default-state processor and overwrites the output buffers (here
from `[0]` to `[-1]`), and the binding has no error return at all. -/
theorem c8_counterexample :
    initialBindings.inited = false ∧
    (bindingsProcess initialBindings [some 1] [some 1] [some 0] [some 0]).map
        (fun r => (r.2.1, r.2.2)) =
      some ([some (-1 : ℚ)], [some (-1 : ℚ)]) ∧
    ([some (-1 : ℚ)] : List (Option ℚ)) ≠ [some (0 : ℚ)] :=
  ⟨rfl, by with_unfolding_all rfl, by norm_num⟩

/-- C8 amended: the exported `process` never consults the
`g_initialized` flag — the processor state and buffers it produces are
identical whether or not `prepare` has ever been called. -/
theorem c8_ignores_initialization (p : VAIstProcessor) (f1 f2 : Bool)
    (li ri lo ro : List (Option ℚ)) :
    (bindingsProcess ⟨p, f1⟩ li ri lo ro).map (fun r => (r.1.proc, r.2)) =
      (bindingsProcess ⟨p, f2⟩ li ri lo ro).map (fun r => (r.1.proc, r.2)) := by
  simp only [bindingsProcess]
  rcases h : wasmProcess p [li, ri] 2 with _ | ⟨p', bufs'⟩
  · rfl
  · rcases bufs' with _ | ⟨l, _ | ⟨r0, _ | ⟨z, rest⟩⟩⟩ <;> rfl

lemma juceProcessBlock_single (p : JuceParams) (sr : ℝ) (st : JuceDsp) (x : RVal) :
    juceProcessBlock p sr st [[x]] =
      some
        ({ st with
            z1c0 := addV (subV (mulV (juceB1n p.b1Freq sr) x)
                      (mulV (juceA1n p.b1Freq sr)
                        (addV (mulV (juceB0n p.b1Freq sr) x) st.z1c0))) st.z2c0,
            z2c0 := subV (mulV (juceB2n p.b1Freq sr) x)
                      (mulV (juceA2n p.b1Freq sr)
                        (addV (mulV (juceB0n p.b1Freq sr) x) st.z1c0)) },
          [[sanitizeR (mulV (addV (mulV (juceB0n p.b1Freq sr) x) st.z1c0)
              (some (juceGainLinear p.masterGain)))]]) := rfl

/-- The parameter values used by the C6 counterexample: mix parameter
(`masterWet`) set to `0`, master gain at its minimum `-24`, `b1Freq` at its
minimum `20`; everything else at the defaults. -/
def c6Params : JuceParams := { masterGain := -24, masterWet := 0, b1Freq := 20 }

/-- Counterexample for C6: the native pipeline applies no dry/wet blend at
all.  With the mix parameter (`masterWet`) set to `0`, the claimed blend
`out = dry*(1-mix) + wet*mix` followed by the sanitizer would return the dry
input `1/2` unchanged, but `processBlock` returns the filtered-and-gained
value, which at `masterGain = -24` is at most `(381/380)*(1/2)*10^(-44.4)`,
far from `1/2`. -/
theorem c6_counterexample :
    (juceProcessBlock c6Params 48000 {} [[some (1 / 2 : ℝ)]]).map Prod.snd ≠
      some [[some (1 / 2 : ℝ)]] := by
  intro hEq
  rw [juceProcessBlock_single, Option.map_some'] at hEq
  have hb : c6Params.b1Freq = 20 := rfl
  have hm : c6Params.masterGain = -24 := rfl
  rw [hb, hm] at hEq
  have hA0ge : 380 / 381 ≤ juceA0 20 48000 := juceA0_ge 20 48000 (le_refl _)
  have hA0pos : (0 : ℝ) < juceA0 20 48000 := by linarith
  have hA0 : juceA0 20 48000 ≠ 0 := ne_of_gt hA0pos
  have hInv : 1 / juceA0 20 48000 ≤ 381 / 380 := by
    calc 1 / juceA0 20 48000 ≤ 1 / (380 / 381) :=
          one_div_le_one_div_of_le (by norm_num) hA0ge
      _ = 381 / 380 := by norm_num
  have hInvpos : 0 < 1 / juceA0 20 48000 := by positivity
  have hc1 : Real.cos (juceOmega 20 48000) ≤ 1 := Real.cos_le_one _
  have hc2 : -1 ≤ Real.cos (juceOmega 20 48000) := Real.neg_one_le_cos _
  have hgpos : 0 < juceGainLinear (-24) := by
    unfold juceGainLinear
    exact Real.rpow_pos_of_pos (by norm_num) _
  have hgle : juceGainLinear (-24) ≤ 1 / 10 := by
    unfold juceGainLinear
    have h1 : ((-24 : ℝ) * 36 - 24) / 20 ≤ -1 := by norm_num
    calc (10 : ℝ) ^ (((-24 : ℝ) * 36 - 24) / 20) ≤ (10 : ℝ) ^ (-1 : ℝ) :=
          (Real.rpow_le_rpow_left_iff (by norm_num)).mpr h1
      _ = 1 / 10 := by rw [Real.rpow_neg_one]; norm_num
  rw [juceB0n, juceA0Inv, if_neg hA0] at hEq
  simp only [mulV_some, addV_some, sanitizeR, List.cons.injEq, and_true,
    Option.some.injEq] at hEq
  set c := Real.cos (juceOmega 20 48000) with hcdef
  set iv := 1 / juceA0 20 48000 with hivdef
  set g := juceGainLinear (-24) with hgdef
  have hb0 : 0 ≤ (1 - c) / 2 := by linarith
  have hb1 : (1 - c) / 2 ≤ 1 := by linarith
  have hprodpos : 0 ≤ (1 - c) / 2 * iv := mul_nonneg hb0 (le_of_lt hInvpos)
  have hprod : (1 - c) / 2 * iv ≤ 381 / 380 := by nlinarith
  have hbound : ((1 - c) / 2 * iv * (1 / 2) + 0) * g ≤ 381 / 7600 := by nlinarith
  have hpos2 : 0 ≤ ((1 - c) / 2 * iv * (1 / 2) + 0) * g := by
    have : 0 ≤ (1 - c) / 2 * iv * (1 / 2) + 0 := by linarith
    exact mul_nonneg this (le_of_lt hgpos)
  split at hEq
  · linarith [hEq]
  · split at hEq
    · linarith [hEq]
    · rw [hEq] at hbound
      norm_num at hbound

/-- C6 amended: the sandboxed pipeline does apply the blend
`out = sanitize(dry*(1-mix) + wet*mix)` to every processed sample, with
`mix` the raw value of the mix parameter (range 0–100, used without any
rescaling) and `wet` the interpolated delay read; the native pipeline
applies no dry/wet blend at all — its result is entirely independent of
the mix parameter (`masterWet`). -/
theorem c6_mix_blend :
    (∀ (sr timev mixv fb : ℚ) (buf : List (Option ℚ)) (wp : ℕ) (x : Option ℚ)
      (r : List (Option ℚ) × ℕ × Option ℚ),
      processSample sr timev mixv fb buf wp x = some r →
      ∃ delayed : Option ℚ,
        r.2.2 = sanitizeQ (addV (mulV x (some (1 - mixv))) (mulV delayed (some mixv)))) ∧
    (∀ (p : JuceParams) (w sr : ℝ) (st : JuceDsp) (bufs : List (List RVal)),
      juceProcessBlock { p with masterWet := w } sr st bufs =
        juceProcessBlock p sr st bufs) := by
  constructor
  · intro sr timev mixv fb buf wp x r h
    rw [processSample.eq_def] at h
    split at h
    all_goals try exact Option.noConfusion h
    split at h
    all_goals try exact Option.noConfusion h
    simp only [Option.some.injEq] at h
    exact ⟨_, by rw [← h]⟩
  · intro p w sr st bufs
    rfl

/-- Witness for C6 amended: a concrete sample through the sandboxed
pipeline (default parameters: `mix = 50`, zero delay state), whose output
`-1` is the sanitized blend of dry `1` and wet `0`. -/
theorem c6_witness :
    ∃ delayed : Option ℚ,
      (some (-1 : ℚ) : Option ℚ) =
        sanitizeQ (addV (mulV (some (1 : ℚ)) (some (1 - 50)))
          (mulV delayed (some 50))) :=
  c6_mix_blend.1 44100 0 50 40 [some 0, some 0, some 0, some 0] 0 (some 1)
    ([some 1, some 0, some 0, some 0], 1, some (-1)) (by with_unfolding_all rfl)

/-- The delay read as the claim describes it (refinement comparison
definition, following the spec's words): `delaySamples` is first clamped to
`[1, capacity-2]`; then `readPos = writePos - floor(delaySamples)` wrapped
by `+= capacity` when negative, and the result interpolates
`buffer[readPos]` and `buffer[readPos - 1 mod capacity]` by the fractional
part of the clamped delay. -/
def specReadInterpolated (buf : List (Option ℚ)) (wp : ℕ) (d : ℚ) :
    Option (Option ℚ) :=
  match listGetI buf
      (wrapIdx buf.length ((wp : ℤ) - ⌊stdClamp d 1 ((buf.length : ℚ) - 2)⌋)),
    listGetI buf
      ((wrapIdx buf.length ((wp : ℤ) - ⌊stdClamp d 1 ((buf.length : ℚ) - 2)⌋) - 1) %
        (buf.length : ℤ)) with
  | some s1, some s2 =>
    some (addV
      (mulV s1 (some (1 -
        (stdClamp d 1 ((buf.length : ℚ) - 2) - ⌊stdClamp d 1 ((buf.length : ℚ) - 2)⌋))))
      (mulV s2 (some
        (stdClamp d 1 ((buf.length : ℚ) - 2) - ⌊stdClamp d 1 ((buf.length : ℚ) - 2)⌋))))
  | _, _ => none

/-- Counterexample for C5: `delaySamples` is not clamped to
`[1, capacity-2]` before the read.  With a 4-slot ring holding
`[1, 0, 0, 0]`, write position 0, `delaySamples = 1/2` and `mix = 1`, the
code's read interpolates the unclamped position (half of the slot being
written) and the block outputs `1/2`; the claimed clamped read yields `0`. -/
theorem c5_counterexample :
    (processSample 48000 (1 / 96000) 1 (2 / 5) [some 1, some 0, some 0, some 0] 0
        (some 0)).map (fun r => r.2.2) = some (some (1 / 2 : ℚ)) ∧
    specReadInterpolated [some 1, some 0, some 0, some 0] 0
        ((1 / 96000 : ℚ) * 1000 * 0.001 * 48000) = some (some 0) ∧
    (1 / 2 : ℚ) ≠ 0 :=
  ⟨by with_unfolding_all rfl, by with_unfolding_all rfl, by norm_num⟩

lemma wrapIdx_eq_emod (len : ℕ) (b : ℤ) (h0 : -(len : ℤ) ≤ b)
    (h1 : b < (len : ℤ)) : wrapIdx len b = b % (len : ℤ) := by
  unfold wrapIdx
  split <;> rename_i hb
  · rw [eq_comm, show b % (len : ℤ) = (b + (len : ℤ) * 1) % (len : ℤ) from
      (Int.add_mul_emod_self_left b (len : ℤ) 1).symm,
      Int.emod_eq_of_lt (by omega) (by omega)]
    ring
  · rw [Int.emod_eq_of_lt (by omega) h1]

lemma delayRead_unclamped (buf : List (Option ℚ)) (wp : ℕ) (delayInt : ℤ)
    (delayFrac : ℚ) (hwp : wp < buf.length) (h0 : 0 ≤ delayInt)
    (h1 : delayInt < (buf.length : ℤ)) :
    ∃ s1 s2,
      buf.get? (((wp : ℤ) - delayInt) % (buf.length : ℤ)).toNat = some s1 ∧
      buf.get? (((wp : ℤ) - delayInt - 1) % (buf.length : ℤ)).toNat = some s2 ∧
      delayRead buf wp delayInt delayFrac =
        some (addV (mulV s1 (some (1 - delayFrac))) (mulV s2 (some delayFrac))) := by
  have hn : (0 : ℤ) < (buf.length : ℤ) := by omega
  have ha0 : -(buf.length : ℤ) ≤ (wp : ℤ) - delayInt := by omega
  have ha1 : (wp : ℤ) - delayInt < (buf.length : ℤ) := by omega
  have e1 : wrapIdx buf.length ((wp : ℤ) - delayInt) =
      ((wp : ℤ) - delayInt) % (buf.length : ℤ) := wrapIdx_eq_emod _ _ ha0 ha1
  have hm0 : 0 ≤ ((wp : ℤ) - delayInt) % (buf.length : ℤ) :=
    Int.emod_nonneg _ (by omega)
  have hm1 : ((wp : ℤ) - delayInt) % (buf.length : ℤ) < (buf.length : ℤ) :=
    Int.emod_lt_of_pos _ hn
  have e2 : wrapIdx buf.length (((wp : ℤ) - delayInt) % (buf.length : ℤ) - 1) =
      ((wp : ℤ) - delayInt - 1) % (buf.length : ℤ) := by
    rw [wrapIdx_eq_emod _ _ (by omega) (by omega)]
    conv_lhs => rw [Int.sub_emod, Int.emod_emod_of_dvd _ dvd_rfl, ← Int.sub_emod]
  have hm0' : 0 ≤ ((wp : ℤ) - delayInt - 1) % (buf.length : ℤ) :=
    Int.emod_nonneg _ (by omega)
  have hm1' : ((wp : ℤ) - delayInt - 1) % (buf.length : ℤ) < (buf.length : ℤ) :=
    Int.emod_lt_of_pos _ hn
  have g1 : listGetI buf (((wp : ℤ) - delayInt) % (buf.length : ℤ)) =
      buf.get? (((wp : ℤ) - delayInt) % (buf.length : ℤ)).toNat := by
    unfold listGetI; rw [if_pos ⟨hm0, hm1⟩]
  have g2 : listGetI buf (((wp : ℤ) - delayInt - 1) % (buf.length : ℤ)) =
      buf.get? (((wp : ℤ) - delayInt - 1) % (buf.length : ℤ)).toNat := by
    unfold listGetI; rw [if_pos ⟨hm0', hm1'⟩]
  have hlt1 : (((wp : ℤ) - delayInt) % (buf.length : ℤ)).toNat < buf.length := by
    omega
  have hlt2 : (((wp : ℤ) - delayInt - 1) % (buf.length : ℤ)).toNat < buf.length := by
    omega
  refine ⟨buf.get ⟨_, hlt1⟩, buf.get ⟨_, hlt2⟩,
    List.get?_eq_get hlt1, List.get?_eq_get hlt2, ?_⟩
  rw [delayRead.eq_def, e1, e2, g1, g2, List.get?_eq_get hlt1, List.get?_eq_get hlt2]

/-- C5 amended: the read uses the unclamped `delaySamples` — no clamping to
`[1, capacity-2]` happens.  Whenever the truncated delay is within
`[0, capacity)` (so the single `+= capacity` wrap suffices), the read
indices are `(writePos - trunc(delaySamples)) mod capacity` and the same
minus one `mod capacity`, the interpolation weights the second sample by
the fractional part, and the sample step performs the feedback write, the
write-position increment and the sanitized mix on that interpolated
value. -/
theorem c5_interpolated_read (sr timev mixv fb : ℚ) (buf : List (Option ℚ))
    (wp : ℕ) (x : Option ℚ) (hwp : wp < buf.length)
    (h0 : 0 ≤ truncQ (timev * 1000 * 0.001 * sr))
    (h1 : truncQ (timev * 1000 * 0.001 * sr) < (buf.length : ℤ)) :
    ∃ s1 s2,
      buf.get? (((wp : ℤ) - truncQ (timev * 1000 * 0.001 * sr)) %
        (buf.length : ℤ)).toNat = some s1 ∧
      buf.get? (((wp : ℤ) - truncQ (timev * 1000 * 0.001 * sr) - 1) %
        (buf.length : ℤ)).toNat = some s2 ∧
      processSample sr timev mixv fb buf wp x =
        some (buf.set wp (addV x (mulV (mulV
                (addV (mulV s1 (some (1 - (timev * 1000 * 0.001 * sr -
                    (truncQ (timev * 1000 * 0.001 * sr) : ℚ)))))
                  (mulV s2 (some (timev * 1000 * 0.001 * sr -
                    (truncQ (timev * 1000 * 0.001 * sr) : ℚ)))))
                (some fb)) (some 0.9))),
              (wp + 1) % buf.length,
              sanitizeQ (addV (mulV x (some (1 - mixv)))
                (mulV (addV (mulV s1 (some (1 - (timev * 1000 * 0.001 * sr -
                    (truncQ (timev * 1000 * 0.001 * sr) : ℚ)))))
                  (mulV s2 (some (timev * 1000 * 0.001 * sr -
                    (truncQ (timev * 1000 * 0.001 * sr) : ℚ)))))
                  (some mixv)))) := by
  obtain ⟨s1, s2, hs1, hs2, hrd⟩ := delayRead_unclamped buf wp
    (truncQ (timev * 1000 * 0.001 * sr))
    (timev * 1000 * 0.001 * sr - (truncQ (timev * 1000 * 0.001 * sr) : ℚ)) hwp h0 h1
  refine ⟨s1, s2, hs1, hs2, ?_⟩
  rw [processSample.eq_def, hrd]
  simp only [if_pos hwp]

/-- Witness for C5 amended: a 2-slot ring `[1, 0]`, write position 0 and
`delaySamples = 1/2` (so the truncated delay is 0 and the fraction 1/2). -/
theorem c5_witness :
    ∃ s1 s2 : Option ℚ,
      ([some (1 : ℚ), some 0] : List (Option ℚ)).get? 0 = some s1 ∧
      ([some (1 : ℚ), some 0] : List (Option ℚ)).get? 1 = some s2 ∧
      processSample 48000 (1 / 96000) 1 (2 / 5) [some 1, some 0] 0 (some 0) =
        some (([some (1 : ℚ), some 0] : List (Option ℚ)).set 0
                (addV (some 0) (mulV (mulV
                  (addV (mulV s1 (some (1 - 1 / 2))) (mulV s2 (some (1 / 2))))
                  (some (2 / 5))) (some 0.9))),
              1,
              sanitizeQ (addV (mulV (some 0) (some (1 - 1)))
                (mulV (addV (mulV s1 (some (1 - 1 / 2))) (mulV s2 (some (1 / 2))))
                  (some 1)))) := by
  have h := c5_interpolated_read 48000 (1 / 96000) 1 (2 / 5)
    [some 1, some 0] 0 (some 0) (by norm_num)
    (by with_unfolding_all exact le_refl 0)
    (by with_unfolding_all exact (show (0 : ℤ) < 2 by norm_num))
  with_unfolding_all exact h
